import Mathlib

/-!
Verification of the pyfar audio-signal container (`src/pyfar/signal.py`).

The development shallowly embeds the parts of `signal.py` the claims are
about: the `Signal` class (dual-domain container with lazy FFT caching),
its property setters/getters, indexing, iteration, and the arithmetic
engine (`_assert_match_for_arithmetic`, `_arithmetic`, `add` .. `power`).

The Fourier-transform primitives live in `pyfar.fft`, which is not part of
the sources under verification; the spec (section 6) pins down the only facts
the container relies on (output lengths, one-sided bin count, normalization
as a black box).  Those are modelled as free term constructors carrying
their arguments, so "how often was the transform invoked" is readable off
the resulting term.  numpy buffers are modelled by their shape plus such a
symbolic value.

Python error classes are collapsed onto a small enum: the spec's
InvalidArgument and MetadataMismatch are both `ValueError` in the source
and map to `PyErr.valueError`; `TypeError`/`IndexError` map to their
namesakes.
-/

deriving instance DecidableEq for Except

/-- The two domains a `Signal` buffer can be tagged with
(`_Audio._VALID_DOMAINS = ["time", "freq"]`). -/
inductive Domain
  | time
  | freq
deriving DecidableEq, Repr

/-- The six FFT normalization conventions
(`_VALID_FFT_NORMS = ["none", "unitary", "amplitude", "rms", "power", "psd"]`). -/
inductive FftNorm
  | none
  | unitary
  | amplitude
  | rms
  | power
  | psd
deriving DecidableEq, Repr

/-- The string spelled for each convention in the source. -/
def FftNorm.toString : FftNorm → String
  | .none => "none"
  | .unitary => "unitary"
  | .amplitude => "amplitude"
  | .rms => "rms"
  | .power => "power"
  | .psd => "psd"

/-- Parse a convention name; `Option.none` for a string outside
`_VALID_FFT_NORMS` (the membership test in the source). -/
def FftNorm.ofString? : String → Option FftNorm
  | "none" => some .none
  | "unitary" => some .unitary
  | "amplitude" => some .amplitude
  | "rms" => some .rms
  | "power" => some .power
  | "psd" => some .psd
  | _ => Option.none

/-- numpy scalar kinds relevant to `_assert_match_for_arithmetic`'s dtype
whitelist (the listed names plus representative kinds outside it). -/
inductive Dtype
  | int8 | int16 | int32 | int64
  | uint8 | uint16 | uint32 | uint64
  | float16 | float32 | float64
  | complex64 | complex128
  | bool_
deriving DecidableEq, Repr

/-- The numpy name of each dtype, as compared against the whitelist strings. -/
def Dtype.name : Dtype → String
  | .int8 => "int8"
  | .int16 => "int16"
  | .int32 => "int32"
  | .int64 => "int64"
  | .uint8 => "uint8"
  | .uint16 => "uint16"
  | .uint32 => "uint32"
  | .uint64 => "uint64"
  | .float16 => "float16"
  | .float32 => "float32"
  | .float64 => "float64"
  | .complex64 => "complex64"
  | .complex128 => "complex128"
  | .bool_ => "bool"

/-- The five elementwise binary operations of the arithmetic engine
(`_add`, `_subtract`, `_multiply`, `_divide`, `_power`). -/
inductive OpKind
  | add
  | sub
  | mul
  | div
  | pow
deriving DecidableEq, Repr

/-- Python exceptions raised by the modelled code. -/
inductive PyErr
  | valueError
  | typeError
  | indexError
deriving DecidableEq, Repr

/-- Symbolic buffer contents.  Calls into the external transform service
(`pyfar.fft`) and elementwise combinations are recorded as constructors, so
counting service invocations is counting constructors. -/
inductive SymData
  | raw (id : Nat)
  | rfft (x : SymData) (n : Nat) (rate : ℚ) (norm : FftNorm)
  | irfft (x : SymData) (n : Nat) (rate : ℚ) (norm : FftNorm)
  | normalization (x : SymData) (n : Nat) (rate : ℚ) (norm : FftNorm) (inverse : Bool)
  | binop (op : OpKind) (a b : SymData)
  | subsel (x : SymData) (i : Nat)
  | setElem (a b : SymData)
deriving DecidableEq, Repr

/-- Number of forward transforms (`fft.rfft`) recorded in a buffer value. -/
def rfftCount : SymData → Nat
  | .raw _ => 0
  | .rfft x _ _ _ => rfftCount x + 1
  | .irfft x _ _ _ => rfftCount x
  | .normalization x _ _ _ _ => rfftCount x
  | .binop _ a b => rfftCount a + rfftCount b
  | .subsel x _ => rfftCount x
  | .setElem a b => rfftCount a + rfftCount b

/-- A numpy array: its shape together with symbolic contents. -/
structure NpArray where
  shape : List Nat
  val : SymData
deriving DecidableEq, Repr

/-- Shape effect of `np.atleast_2d`. -/
def np_atleast_2d_shape : List Nat → List Nat
  | [] => [1, 1]
  | [a] => [1, a]
  | l => l

/-- `np.atleast_2d`: pads the shape to rank two with leading ones; returns a
view, so the symbolic contents are unchanged. -/
def np_atleast_2d (a : NpArray) : NpArray :=
  ⟨np_atleast_2d_shape a.shape, a.val⟩

/-- Trailing-axis length (`shape[-1]`). -/
def NpArray.trailing (a : NpArray) : Nat := a.shape.getLastD 0

/-- Modelled from the spec: `pyfar.fft._n_bins` is not under src/; spec
section 6 fixes the one-sided bin count as `floor(sample_count/2) + 1`. -/
def fft_n_bins (n : Nat) : Nat := n / 2 + 1

/-- Modelled from the spec: `pyfar.fft.rfft` (forward transform) is not under
src/; spec section 6: it produces one-sided bins of length
`floor(sample_count/2)+1` over the same channel shape.  The call is recorded
symbolically. -/
def fft_rfft (x : NpArray) (n : Nat) (rate : ℚ) (norm : FftNorm) : NpArray :=
  ⟨x.shape.dropLast ++ [fft_n_bins n], SymData.rfft x.val n rate norm⟩

/-- Modelled from the spec: `pyfar.fft.irfft` (inverse transform) is not under
src/; spec section 6: it produces exactly `sample_count` samples over the same
channel shape.  The call is recorded symbolically. -/
def fft_irfft (x : NpArray) (n : Nat) (rate : ℚ) (norm : FftNorm) : NpArray :=
  ⟨x.shape.dropLast ++ [n], SymData.irfft x.val n rate norm⟩

/-- Modelled from the spec: `pyfar.fft.normalization` is not under src/; spec
section 6: it rescales the buffer (shape preserved) according to a convention,
with an inverse flag.  The call is recorded symbolically. -/
def fft_normalization (x : NpArray) (n : Nat) (rate : ℚ) (norm : FftNorm)
    (inverse : Bool) : NpArray :=
  ⟨x.shape, SymData.normalization x.val n rate norm inverse⟩

/-- The state of a `Signal` object: the attributes `_domain`,
`_sampling_rate`, `_n_samples`, `_fft_norm`, `_data` of
`Signal` (`src/pyfar/signal.py`). -/
structure Signal where
  domain : Domain
  sampling_rate : ℚ
  n_samples : Nat
  fft_norm : FftNorm
  data : NpArray
deriving DecidableEq, Repr

/-- `Signal.n_bins`: `fft._n_bins(self.n_samples)`. -/
def Signal.n_bins (s : Signal) : Nat := fft_n_bins s.n_samples

/-- Channel shape `cshape = self._data.shape[:-1]`. -/
def Signal.cshape (s : Signal) : List Nat := s.data.shape.dropLast

/-- The `time` setter (`TimeData.time.setter`, inherited by `Signal`):
store `np.atleast_2d` of the value, refresh `_n_samples` from the trailing
axis, tag the domain as time. -/
def Signal.time_set (s : Signal) (value : NpArray) : Signal :=
  { s with data := np_atleast_2d value,
           n_samples := (np_atleast_2d value).trailing,
           domain := Domain.time }

/-- Result of the `Signal.freq` setter: the new state plus whether the
non-fatal "number of frequency bins changed" warning was emitted. -/
structure FreqSetResult where
  sig : Signal
  warned : Bool
deriving DecidableEq, Repr

/-- The `Signal.freq` setter: store the value (via `FrequencyData.freq.fset`:
`atleast_2d`, domain tag freq), then keep `n_samples` if the new trailing
length equals the current `n_bins`, else warn and recover
`n_samples = (shape[-1] - 1) * 2`. -/
def Signal.freq_set (s : Signal) (value : NpArray) : FreqSetResult :=
  if (np_atleast_2d value).trailing = fft_n_bins s.n_samples then
    ⟨{ s with data := np_atleast_2d value, domain := Domain.freq,
              n_samples := s.n_samples }, false⟩
  else
    ⟨{ s with data := np_atleast_2d value, domain := Domain.freq,
              n_samples := ((np_atleast_2d value).trailing - 1) * 2 }, true⟩

/-- The `Signal.domain` setter: convert only on an actual change, invoking
the inverse transform (towards time) or the forward transform (towards freq)
through the corresponding data setter.  The domain argument is already a
`Domain`, so the `_VALID_DOMAINS` membership check of the source cannot
fail here. -/
def Signal.set_domain (s : Signal) (new_domain : Domain) : Signal :=
  if s.domain = new_domain then s
  else
    match new_domain with
    | Domain.time =>
        s.time_set (fft_irfft s.data s.n_samples s.sampling_rate s.fft_norm)
    | Domain.freq =>
        (s.freq_set (fft_rfft s.data s.n_samples s.sampling_rate s.fft_norm)).sig

/-- The `Signal.freq` getter: `self.domain = 'freq'; return super().freq` —
a state transition plus the returned (possibly freshly converted) buffer. -/
def Signal.freq_read (s : Signal) : Signal × NpArray :=
  (s.set_domain Domain.freq, (s.set_domain Domain.freq).data)

/-- The `Signal.time` getter: `self.domain = 'time'; return super().time`. -/
def Signal.time_read (s : Signal) : Signal × NpArray :=
  (s.set_domain Domain.time, (s.set_domain Domain.time).data)

/-- The `Signal.fft_norm` setter: reject names outside `_VALID_FFT_NORMS`
(raising before any mutation); on a real change while in the frequency
domain, de-normalize with the old convention (inverse call) then normalize
with the new one (forward call); finally relabel. -/
def Signal.fft_norm_set (s : Signal) (value : String) : Signal × Option PyErr :=
  match FftNorm.ofString? value with
  | Option.none => (s, some PyErr.valueError)
  | some v =>
    if s.fft_norm ≠ v ∧ s.domain = Domain.freq then
      ({ s with
          data := fft_normalization
            (fft_normalization s.data s.n_samples s.sampling_rate s.fft_norm true)
            s.n_samples s.sampling_rate v false,
          fft_norm := v }, Option.none)
    else
      ({ s with fft_norm := v }, Option.none)

/-- `Signal.__init__` (`src/pyfar/signal.py`).  `domain` is the raw string
parameter; an invalid string raises ValueError (in `_Audio.__init__`).
Time branch: data to `atleast_2d`, `_n_samples` from the trailing axis,
convention name validated; `TimeData.__init__` then re-checks that the time
stamps `arange(n)/rate` are strictly increasing, which for a rational rate
fails exactly when `n > 1` and the rate is negative (a zero rate yields
non-finite stamps whose comparisons are all false in numpy, so no raise).
Freq branch: with `n_samples` omitted a warning is emitted and an even count
`(n_bins-1)*2` is assumed; an explicit `n_samples > 2*shape[-1] - 1` raises;
`FrequencyData.__init__` then checks the derived bin frequencies
`k*rate/n` — strictly increasing fails exactly when there is more than one
bin and the rate is not positive — and validates the convention name.
The returned flag records whether the assumed-even warning was emitted.
The tail of the freq branch is `signal_init_freq_finish`:
`FrequencyData.__init__` run on a `Signal` (its length check compares the
derived frequencies, of length `n_bins(n_samples)`, against the overridden
`Signal.n_bins`, so it always passes; monotonicity and the convention name
can still raise). -/
def signal_init_freq_finish (d2 : NpArray) (sampling_rate : ℚ) (ns : Nat)
    (fft_norm : Option String) (warned : Bool) : Except PyErr (Signal × Bool) :=
  if 1 < fft_n_bins ns ∧ ¬ (0 < sampling_rate) then Except.error PyErr.valueError
  else
    match FftNorm.ofString? (fft_norm.getD "none") with
    | Option.none => Except.error PyErr.valueError
    | some nrm =>
      Except.ok ({ domain := Domain.freq, sampling_rate := sampling_rate,
                   n_samples := ns, fft_norm := nrm, data := d2 }, warned)

/-- `Signal.__init__` proper; see the comment on `signal_init_freq_finish`
for the overall description. -/
def signal_init (data : NpArray) (sampling_rate : ℚ) (n_samples : Option Nat)
    (domain : String) (fft_norm : Option String) :
    Except PyErr (Signal × Bool) :=
  if domain = "time" then
    match FftNorm.ofString? (fft_norm.getD "none") with
    | Option.none => Except.error PyErr.valueError
    | some nrm =>
      if 1 < (np_atleast_2d data).trailing ∧ sampling_rate < 0 then
        Except.error PyErr.valueError
      else
        Except.ok ({ domain := Domain.time, sampling_rate := sampling_rate,
                     n_samples := (np_atleast_2d data).trailing, fft_norm := nrm,
                     data := np_atleast_2d data }, false)
  else if domain = "freq" then
    match n_samples with
    | Option.none =>
      -- warning: assuming an even number of samples
      signal_init_freq_finish (np_atleast_2d data) sampling_rate
        (((np_atleast_2d data).trailing - 1) * 2) fft_norm true
    | some ns =>
      if (ns : Int) > 2 * ((np_atleast_2d data).trailing : Int) - 1 then
        Except.error PyErr.valueError
      else signal_init_freq_finish (np_atleast_2d data) sampling_rate ns fft_norm false
  else Except.error PyErr.valueError

/-- An index as accepted by `_Audio.__getitem__`/`__setitem__`: an integer,
a slice, or a tuple (modelled as a tuple of integers). -/
inductive PyKey
  | int (i : Int)
  | slice (start stop step : Option Int)
  | tup (ks : List Int)
deriving DecidableEq, Repr

/-- Number of positions selected by a Python slice on an axis of length `n`
(CPython `slice.indices` followed by the length formula).  The `max 0`
wrapper makes truncating and flooring division agree wherever the result is
positive, so Lean's `Int` division is faithful here. -/
def pySliceLen (n : Nat) (start stop step : Option Int) : Nat :=
  let st : Int := step.getD 1
  if st = 0 then 0
  else if 0 < st then
    let lo : Int :=
      match start with
      | Option.none => 0
      | some a => if a < 0 then max (a + n) 0 else min a n
    let hi : Int :=
      match stop with
      | Option.none => n
      | some b => if b < 0 then max (b + n) 0 else min b n
    (max 0 ((hi - lo + st - 1) / st)).toNat
  else
    let lo : Int :=
      match start with
      | Option.none => (n : Int) - 1
      | some a => if a < 0 then max (a + n) (-1) else min a ((n : Int) - 1)
    let hi : Int :=
      match stop with
      | Option.none => -1
      | some b => if b < 0 then max (b + n) (-1) else min b ((n : Int) - 1)
    (max 0 ((hi - lo + st + 1) / st)).toNat

/-- numpy broadcasting of two shapes, on right-aligned (reversed) dimension
lists: dimensions must be equal or one of them 1. -/
def bcast2 : List Nat → List Nat → Option (List Nat)
  | [], bs => some bs
  | as, [] => some as
  | a :: as, b :: bs =>
    if a = b ∨ b = 1 then (bcast2 as bs).map (a :: ·)
    else if a = 1 then (bcast2 as bs).map (b :: ·)
    else Option.none

/-- numpy broadcast of two shapes (`Option.none` = raises ValueError). -/
def broadcastShapes (x y : List Nat) : Option (List Nat) :=
  (bcast2 x.reverse y.reverse).map List.reverse

/-- Strip leading length-1 axes (numpy assignment tolerates extra leading
singleton axes on the assigned value). -/
def stripLeadingOnes : List Nat → List Nat
  | 1 :: rest => stripLeadingOnes rest
  | l => l

/-- Right-aligned check that every source dimension equals the target
dimension or is 1 (and the source has no more dimensions), on reversed
lists. -/
def bcastToDims : List Nat → List Nat → Bool
  | [], _ => true
  | _ :: _, [] => false
  | a :: as, b :: bs => (a == b || a == 1) && bcastToDims as bs

/-- Whether a value of shape `src` can be assigned (numpy broadcast) into a
selection of shape `tgt`. -/
def canAssign (src tgt : List Nat) : Bool :=
  bcastToDims (stripLeadingOnes src).reverse tgt.reverse

/-- `Signal._assert_matching_meta_data` — the value is a `Signal` by typing;
sampling rate, sample count, and FFT norm must agree (each mismatch raises
ValueError). -/
def Signal.assert_matching_meta_data (s other : Signal) : Option PyErr :=
  if s.sampling_rate ≠ other.sampling_rate then some PyErr.valueError
  else if s.n_samples ≠ other.n_samples then some PyErr.valueError
  else if s.fft_norm ≠ other.fft_norm then some PyErr.valueError
  else Option.none

/-- `_Audio.__setitem__` for `Signal`: first the metadata assertion, then
the key-type dispatch — `int` and `slice` perform the numpy assignment
`self._data[key] = value._data` (out-of-range integer: IndexError;
non-broadcastable value: ValueError), while any other key type, tuples
included, raises TypeError. -/
def Signal.setitem (s : Signal) (key : PyKey) (value : Signal) :
    Except PyErr Signal :=
  match s.assert_matching_meta_data value with
  | some e => Except.error e
  | Option.none =>
    match key with
    | PyKey.int i =>
      let rows := s.data.shape.headD 0
      if i < -(rows : Int) ∨ (rows : Int) ≤ i then Except.error PyErr.indexError
      else if canAssign value.data.shape s.data.shape.tail then
        Except.ok { s with data := ⟨s.data.shape, SymData.setElem s.data.val value.data.val⟩ }
      else Except.error PyErr.valueError
    | PyKey.slice start stop step =>
      if step = some 0 then Except.error PyErr.valueError
      else
        let len := pySliceLen (s.data.shape.headD 0) start stop step
        if canAssign value.data.shape (len :: s.data.shape.tail) then
          Except.ok { s with data := ⟨s.data.shape, SymData.setElem s.data.val value.data.val⟩ }
        else Except.error PyErr.valueError
    | PyKey.tup _ => Except.error PyErr.typeError

/-- The string `_Audio.domain` holds for a `Domain` tag. -/
def domainString : Domain → String
  | Domain.time => "time"
  | Domain.freq => "freq"

/-- Drop the second-to-last entry of a shape (the axis selected by the
`[..., 0, :]` index in `SignalIterator.__init__`). -/
def dropPenult (l : List Nat) : List Nat :=
  match l.reverse with
  | last :: _ :: rest => rest.reverse ++ [last]
  | _ => l

/-- `Signal.__iter__` run to exhaustion.  `SignalIterator.__init__` first
builds a template signal from `signal._data[..., 0, :]` through the full
`Signal` constructor (requiring at least two axes and a nonempty
second-to-last axis, else numpy raises IndexError); each `__next__` then
pulls the next slice along the FIRST axis from numpy's array iterator and
stores `np.atleast_2d` of it directly into the template's `_data` (the
other attributes are untouched).  The Python iterator returns the same
mutable object each step; the list here holds the per-step snapshots.  The
domain-change guard in `__next__` compares the parent's tag with the
template's, which this pure model keeps equal, so the RuntimeError branch
is unreachable here. -/
def signal_iterate (s : Signal) : Except PyErr (List Signal) :=
  let shape := s.data.shape
  if shape.length < 2 then Except.error PyErr.indexError
  else if shape.get? (shape.length - 2) = some 0 then Except.error PyErr.indexError
  else
    match signal_init ⟨dropPenult shape, SymData.subsel s.data.val 0⟩ s.sampling_rate
        (some s.n_samples) (domainString s.domain) (some s.fft_norm.toString) with
    | Except.error e => Except.error e
    | Except.ok (iter0, _) =>
      Except.ok ((List.range (shape.headD 0)).map (fun i =>
        { iter0 with data := np_atleast_2d ⟨shape.tail, SymData.subsel s.data.val i⟩ }))

/-- An operand of the arithmetic functions: a `Signal`, or a non-Signal
array-like carrying the dtype `np.asarray` would report, its shape
(a scalar has shape `[]`), and an identifier for its contents. -/
inductive Operand
  | sig (s : Signal)
  | arr (dtype : Dtype) (shape : List Nat) (id : Nat)
deriving DecidableEq, Repr

/-- The dtype whitelist of `_assert_match_for_arithmetic`. -/
def arith_dtypes : List String :=
  ["int8", "int16", "int32", "int64",
   "float32", "float64",
   "complex64", "complex128"]

/-- The operand loop of `_assert_match_for_arithmetic`, carrying the
accumulators `sampling_rate`, `n_samples`, `fft_norm` (all initially Python
`None`).  A `Signal` seeds the accumulators or is compared against them
(mismatch raises ValueError); a non-Signal must have a whitelisted dtype and
must not be complex when the target domain is time.  The "power signal"
update replaces an accumulated `'none'` norm by the first non-`'none'`
signal norm encountered. -/
def assertLoop (domain : String) :
    List Operand → Option ℚ → Option Nat → Option FftNorm →
    Except PyErr (Option ℚ × Option Nat × Option FftNorm)
  | [], sr, ns, fn => Except.ok (sr, ns, fn)
  | Operand.sig d :: rest, Option.none, _, _ =>
    let fn1 : Option FftNorm := some d.fft_norm
    let fn2 := if d.fft_norm ≠ FftNorm.none ∧ fn1 = some FftNorm.none
               then some d.fft_norm else fn1
    assertLoop domain rest (some d.sampling_rate) (some d.n_samples) fn2
  | Operand.sig d :: rest, some r, ns, fn =>
    if r ≠ d.sampling_rate then Except.error PyErr.valueError
    else if ns ≠ some d.n_samples then Except.error PyErr.valueError
    else
      let fn2 := if d.fft_norm ≠ FftNorm.none ∧ fn = some FftNorm.none
                 then some d.fft_norm else fn
      assertLoop domain rest (some r) ns fn2
  | Operand.arr dt _ _ :: rest, sr, ns, fn =>
    if dt.name ∉ arith_dtypes then Except.error PyErr.valueError
    else if dt.name ∈ ["complex64", "complex128"] ∧ domain = "time" then
      Except.error PyErr.valueError
    else assertLoop domain rest sr ns fn

/-- `_assert_match_for_arithmetic` — the tuple-type check is subsumed by the
`List Operand` typing; then the domain string is validated and the operand
loop runs. -/
def _assert_match_for_arithmetic (data : List Operand) (domain : String) :
    Except PyErr (Option ℚ × Option Nat × Option FftNorm) :=
  if domain = "time" ∨ domain = "freq" then
    assertLoop domain data Option.none Option.none Option.none
  else Except.error PyErr.valueError

/-- `_get_arithmetic_data`: a `Signal` is read in the requested domain
(triggering a lazy conversion on its own copy) and, in the frequency
domain, de-normalized when its convention is not `'none'`; a non-Signal
passes through `np.asarray` unchanged.  The domain has already been
validated by `_assert_match_for_arithmetic` when this runs, so it is a
`Domain` here. -/
def _get_arithmetic_data (data : Operand) (n_samples : Option Nat)
    (domain : Domain) : NpArray :=
  match data with
  | Operand.sig s =>
    match domain with
    | Domain.time => (s.set_domain Domain.time).data
    | Domain.freq =>
      let d := (s.set_domain Domain.freq).data
      if s.fft_norm ≠ FftNorm.none then
        -- n_samples is never Python None here: a Signal operand exists
        fft_normalization d (n_samples.getD 0) s.sampling_rate s.fft_norm true
      else d
  | Operand.arr _ shape id => ⟨shape, SymData.raw id⟩

/-- One elementwise combination step: numpy broadcasts the shapes (raising
ValueError on incompatibility) and the operation is recorded symbolically. -/
def opCombine (op : OpKind) (x y : NpArray) : Except PyErr NpArray :=
  match broadcastShapes x.shape y.shape with
  | Option.none => Except.error PyErr.valueError
  | some sh => Except.ok ⟨sh, SymData.binop op x.val y.val⟩

/-- The left fold of `_arithmetic` over the remaining operands. -/
def foldOps (op : OpKind) (acc : NpArray) : List NpArray → Except PyErr NpArray
  | [] => Except.ok acc
  | y :: ys =>
    match opCombine op acc y with
    | Except.error e => Except.error e
    | Except.ok r => foldOps op r ys

/-- Result of `_arithmetic`: a bare numpy array when no Signal was among
the operands, a new `Signal` otherwise. -/
inductive ArithResult
  | arrOnly (a : NpArray)
  | sigRes (s : Signal)
deriving DecidableEq, Repr

/-- The target domain as a tag; `_assert_match_for_arithmetic` has already
ruled out anything but `"time"` and `"freq"` when this is consulted. -/
def arithDomain (domain : String) : Domain :=
  if domain = "time" then Domain.time else Domain.freq

/-- The tail of `_arithmetic` once a Signal was present (common sampling
rate `sr`): in the frequency domain re-apply the collected normalization,
then wrap the buffer in a new `Signal` through the constructor. -/
def _arithmetic_wrap (result : NpArray) (domain : String) (sr : ℚ)
    (ns? : Option Nat) (fn? : Option FftNorm) : Except PyErr ArithResult :=
  match signal_init
      (if arithDomain domain = Domain.freq then
        fft_normalization result (ns?.getD 0) sr (fn?.getD FftNorm.none) false
      else result)
      sr ns? domain (fn?.map FftNorm.toString) with
  | Except.error e => Except.error e
  | Except.ok (sig, _) => Except.ok (ArithResult.sigRes sig)

/-- `_arithmetic` after the metadata collection (`sr?`, `ns?`, `fn?` are the
accumulators returned by `_assert_match_for_arithmetic`): pull every
operand's data in the target domain (an empty tuple raises IndexError at
`data[0]`), fold the elementwise operation left-to-right, and hand a
Signal-bearing result to `_arithmetic_wrap`. -/
def _arithmetic_after (data : List Operand) (domain : String) (op : OpKind)
    (sr? : Option ℚ) (ns? : Option Nat) (fn? : Option FftNorm) :
    Except PyErr ArithResult :=
  match data with
  | [] => Except.error PyErr.indexError
  | d0 :: rest =>
    match foldOps op (_get_arithmetic_data d0 ns? (arithDomain domain))
        (rest.map (fun d => _get_arithmetic_data d ns? (arithDomain domain))) with
    | Except.error e => Except.error e
    | Except.ok result =>
      match sr? with
      | Option.none => Except.ok (ArithResult.arrOnly result)
      | some sr => _arithmetic_wrap result domain sr ns? fn?

/-- `_arithmetic`: validate and collect metadata, then combine
(`_arithmetic_after`). -/
def _arithmetic (data : List Operand) (domain : String) (op : OpKind) :
    Except PyErr ArithResult :=
  match _assert_match_for_arithmetic data domain with
  | Except.error e => Except.error e
  | Except.ok (sr?, ns?, fn?) => _arithmetic_after data domain op sr? ns? fn?

/-- `add(data, domain)` (source default domain: `'freq'`). -/
def add (data : List Operand) (domain : String) : Except PyErr ArithResult :=
  _arithmetic data domain OpKind.add

/-- `subtract(data, domain)` (source default domain: `'freq'`). -/
def subtract (data : List Operand) (domain : String) : Except PyErr ArithResult :=
  _arithmetic data domain OpKind.sub

/-- `multiply(data, domain)` (source default domain: `'freq'`). -/
def multiply (data : List Operand) (domain : String) : Except PyErr ArithResult :=
  _arithmetic data domain OpKind.mul

/-- `divide(data, domain)` (source default domain: `'freq'`). -/
def divide (data : List Operand) (domain : String) : Except PyErr ArithResult :=
  _arithmetic data domain OpKind.div

/-- `power(data, domain)` (source default domain: `'freq'`). -/
def power (data : List Operand) (domain : String) : Except PyErr ArithResult :=
  _arithmetic data domain OpKind.pow

/-!
Buffer-ownership model.  Claim C9 is about object identity and in-place
mutation, so numpy arrays are modelled here at the storage level: an
allocation id into a heap of matrices, plus a view selector.  numpy facts
used: basic integer indexing returns a view of the same allocation;
`np.asarray(x, dtype)` returns `x` itself (no copy) when the dtype already
matches, and a fresh converted allocation otherwise; `np.atleast_2d` of a
1-d array returns a view of the same allocation.
-/

/-- A view selector: the whole (2-d) allocation, or one of its rows. -/
inductive NpView
  | whole
  | row (i : Nat)
deriving DecidableEq, Repr

/-- A numpy array at storage level: allocation id, dtype, view. -/
structure HArr where
  bufId : Nat
  dtype : Dtype
  view : NpView
deriving DecidableEq, Repr

/-- The heap: allocation ids to matrix contents. -/
def HHeap := Nat → List (List ℚ)

/-- The values an array presents (a row view is shown as `atleast_2d`
would, with a leading singleton axis). -/
def hObserve (h : HHeap) (a : HArr) : List (List ℚ) :=
  match a.view with
  | NpView.whole => h a.bufId
  | NpView.row i => [(h a.bufId).getD i []]

/-- Update entry `(i, j)` of a matrix. -/
def matSet (m : List (List ℚ)) (i j : Nat) (x : ℚ) : List (List ℚ) :=
  m.set i ((m.getD i []).set j x)

/-- In-place element assignment `a[i, j] = x` (for a row view the row is
fixed by the view and `j` indexes into it): mutates the underlying
allocation, which every view of that allocation observes. -/
def hWrite (h : HHeap) (a : HArr) (i j : Nat) (x : ℚ) : HHeap :=
  fun b =>
    if b = a.bufId then
      match a.view with
      | NpView.whole => matSet (h b) i j x
      | NpView.row r => matSet (h b) r j x
    else h b

/-- `np.asarray(a, dtype)`: the same array (no copy, same allocation) when
the dtype matches, otherwise a converted copy at a fresh allocation. -/
def np_asarray_h (h : HHeap) (a : HArr) (dt : Dtype) (fresh : Nat) :
    HArr × HHeap :=
  if a.dtype = dt then (a, h)
  else (⟨fresh, dt, NpView.whole⟩,
        fun b => if b = fresh then hObserve h a else h b)

/-- The buffer of the signal returned by `signal[k]` for an integer key:
`_Audio.__getitem__` takes the view `self._data[key]`, and
`Signal._return_item` feeds it to the constructor, whose
`np.atleast_2d(np.asarray(data, dtype=self.dtype))` neither copies (the
dtype is the parent's own) nor re-allocates (`atleast_2d` is a view). -/
def getitem_buffer (h : HHeap) (parent : HArr) (k : Nat) (fresh : Nat) :
    HArr × HHeap :=
  let viewed : HArr := { parent with view := NpView.row k }
  np_asarray_h h viewed parent.dtype fresh

/-- Modelled from the spec: `utils.copy` (module `pyfar.utils`, used by
`_Audio.copy` but not under src/) performs a deep copy (spec section 3:
"copies are deep"), so the copy's buffer is a fresh allocation holding the
same contents. -/
def utils_copy_buffer (h : HHeap) (a : HArr) (fresh : Nat) : HArr × HHeap :=
  (⟨fresh, a.dtype, NpView.whole⟩,
   fun b => if b = fresh then hObserve h a else h b)

/-!
Spec-side characterizations used by the arithmetic claims.
-/

/-- The first `Signal` among the operands (whose metadata the engine
adopts). -/
def firstSignal? : List Operand → Option Signal
  | [] => Option.none
  | Operand.sig s :: _ => some s
  | Operand.arr _ _ _ :: rest => firstSignal? rest

/-- The FFT norms of the Signal operands, in order. -/
def signalNorms (data : List Operand) : List FftNorm :=
  data.filterMap (fun d =>
    match d with
    | Operand.sig s => some s.fft_norm
    | Operand.arr _ _ _ => Option.none)

/-- First-non-none-wins: the convention of the first Signal operand whose
convention is not `'none'`, or `'none'` when every Signal operand uses
`'none'`. -/
def resultNorm (data : List Operand) : FftNorm :=
  ((signalNorms data).find? (fun n => n != FftNorm.none)).getD FftNorm.none

/-- The claim's amended acceptance rule for a non-Signal operand kind:
signed 8/16/32/64-bit integers and 32/64-bit floats are accepted, 64/128-bit
complex only outside the time domain, everything else (unsigned integers
included) is rejected. -/
def amendedAccept (dt : Dtype) (domain : String) : Bool :=
  match dt with
  | Dtype.int8 | Dtype.int16 | Dtype.int32 | Dtype.int64
  | Dtype.float32 | Dtype.float64 => true
  | Dtype.complex64 | Dtype.complex128 => !(domain == "time")
  | _ => false

/-!
Lemmas about the metadata-collection loop.
-/

theorem assertLoop_error_eq (domain : String) (data : List Operand) :
    ∀ (sr : Option ℚ) (ns : Option Nat) (fn : Option FftNorm) (e : PyErr),
    assertLoop domain data sr ns fn = Except.error e → e = PyErr.valueError := by
  induction data with
  | nil => intro sr ns fn e h; simp [assertLoop] at h
  | cons d rest ih =>
    intro sr ns fn e h
    cases d with
    | sig d0 =>
      cases sr with
      | none => exact ih _ _ _ _ h
      | some r =>
        by_cases h1 : r ≠ d0.sampling_rate
        · rw [assertLoop, if_pos h1] at h
          exact (Except.error.inj h).symm
        · by_cases h2 : ns ≠ some d0.n_samples
          · rw [assertLoop, if_neg h1, if_pos h2] at h
            exact (Except.error.inj h).symm
          · rw [assertLoop, if_neg h1, if_neg h2] at h
            exact ih _ _ _ _ h
    | arr dt sh id =>
      by_cases h1 : dt.name ∉ arith_dtypes
      · rw [assertLoop, if_pos h1] at h
        exact (Except.error.inj h).symm
      · by_cases h2 : dt.name ∈ ["complex64", "complex128"] ∧ domain = "time"
        · rw [assertLoop, if_neg h1, if_pos h2] at h
          exact (Except.error.inj h).symm
        · rw [assertLoop, if_neg h1, if_neg h2] at h
          exact ih _ _ _ _ h

theorem assertLoop_some_ok_agree (domain : String) (data : List Operand) :
    ∀ (r : ℚ) (n : Nat) (fn : Option FftNorm) (out : Option ℚ × Option Nat × Option FftNorm),
    assertLoop domain data (some r) (some n) fn = Except.ok out →
    ∀ s : Signal, Operand.sig s ∈ data → s.sampling_rate = r ∧ s.n_samples = n := by
  induction data with
  | nil => intro r n fn out _ s hs; simp at hs
  | cons d rest ih =>
    intro r n fn out h s hs
    cases d with
    | sig d0 =>
      by_cases h1 : r ≠ d0.sampling_rate
      · rw [assertLoop, if_pos h1] at h; exact absurd h (by simp)
      · by_cases h2 : (some n : Option Nat) ≠ some d0.n_samples
        · rw [assertLoop, if_neg h1, if_pos h2] at h; exact absurd h (by simp)
        · rw [assertLoop, if_neg h1, if_neg h2] at h
          push_neg at h1 h2
          rcases List.mem_cons.mp hs with heq | hmem
          · injection heq with h3
            subst h3
            exact ⟨h1.symm, (Option.some.inj h2).symm⟩
          · exact ih _ _ _ _ h s hmem
    | arr dt sh id =>
      by_cases h1 : dt.name ∉ arith_dtypes
      · rw [assertLoop, if_pos h1] at h; exact absurd h (by simp)
      · by_cases h2 : dt.name ∈ ["complex64", "complex128"] ∧ domain = "time"
        · rw [assertLoop, if_neg h1, if_pos h2] at h; exact absurd h (by simp)
        · rw [assertLoop, if_neg h1, if_neg h2] at h
          rcases List.mem_cons.mp hs with heq | hmem
          · exact absurd heq (by simp)
          · exact ih _ _ _ _ h s hmem

theorem assert_ok_signals_agree (domain : String) (data : List Operand)
    (out : Option ℚ × Option Nat × Option FftNorm)
    (h : _assert_match_for_arithmetic data domain = Except.ok out) :
    ∀ s1 s2 : Signal, Operand.sig s1 ∈ data → Operand.sig s2 ∈ data →
      s1.sampling_rate = s2.sampling_rate ∧ s1.n_samples = s2.n_samples := by
  rw [_assert_match_for_arithmetic] at h
  split at h
  case isFalse => exact absurd h (by simp)
  case isTrue hdom =>
    clear hdom
    induction data with
    | nil => intro s1 s2 hs1 _; simp at hs1
    | cons d rest ih =>
      intro s1 s2 hs1 hs2
      cases d with
      | sig d0 =>
        rw [assertLoop] at h
        have key := assertLoop_some_ok_agree domain rest _ _ _ _ h
        rcases List.mem_cons.mp hs1 with he1 | hm1 <;>
          rcases List.mem_cons.mp hs2 with he2 | hm2
        · injection he1 with e1; injection he2 with e2; subst e1; subst e2; exact ⟨rfl, rfl⟩
        · injection he1 with e1; subst e1
          have := key s2 hm2
          exact ⟨this.1.symm, this.2.symm⟩
        · injection he2 with e2; subst e2
          exact key s1 hm1
        · have k1 := key s1 hm1
          have k2 := key s2 hm2
          exact ⟨k1.1.trans k2.1.symm, k1.2.trans k2.2.symm⟩
      | arr dt sh id =>
        by_cases h1 : dt.name ∉ arith_dtypes
        · rw [assertLoop, if_pos h1] at h; exact absurd h (by simp)
        · by_cases h2 : dt.name ∈ ["complex64", "complex128"] ∧ domain = "time"
          · rw [assertLoop, if_neg h1, if_pos h2] at h; exact absurd h (by simp)
          · rw [assertLoop, if_neg h1, if_neg h2] at h
            rcases List.mem_cons.mp hs1 with he1 | hm1
            · exact absurd he1 (by simp)
            · rcases List.mem_cons.mp hs2 with he2 | hm2
              · exact absurd he2 (by simp)
              · exact ih h s1 s2 hm1 hm2

theorem signalNorms_cons_sig (d : Signal) (rest : List Operand) :
    signalNorms (Operand.sig d :: rest) = d.fft_norm :: signalNorms rest := rfl

theorem signalNorms_cons_arr (dt : Dtype) (sh : List Nat) (id : Nat)
    (rest : List Operand) :
    signalNorms (Operand.arr dt sh id :: rest) = signalNorms rest := rfl


/-- First-non-none-wins on a plain list of norms. -/
def resultNormList (l : List FftNorm) : FftNorm :=
  (l.find? (fun n => n != FftNorm.none)).getD FftNorm.none

theorem resultNorm_eq (data : List Operand) :
    resultNorm data = resultNormList (signalNorms data) := rfl

theorem resultNormList_nil : resultNormList [] = FftNorm.none := rfl

theorem resultNormList_cons_none (l : List FftNorm) :
    resultNormList (FftNorm.none :: l) = resultNormList l := by
  unfold resultNormList
  rw [List.find?_cons_of_neg _ (by simp)]

theorem resultNormList_cons_ne (a : FftNorm) (l : List FftNorm)
    (h : a ≠ FftNorm.none) :
    resultNormList (a :: l) = a := by
  unfold resultNormList
  rw [List.find?_cons_of_pos _ (by simpa using h)]
  rfl

theorem assertLoop_some_ok_out (domain : String) (data : List Operand) :
    ∀ (r : ℚ) (ns : Option Nat) (f : FftNorm)
      (out : Option ℚ × Option Nat × Option FftNorm),
    assertLoop domain data (some r) ns (some f) = Except.ok out →
    out = (some r, ns,
      some (if f = FftNorm.none then resultNormList (signalNorms data) else f)) := by
  induction data with
  | nil =>
    intro r ns f out h
    rw [assertLoop] at h
    have h2 := (Except.ok.inj h).symm
    subst h2
    by_cases hf : f = FftNorm.none
    · rw [if_pos hf, hf]; rfl
    · rw [if_neg hf]
  | cons d rest ih =>
    intro r ns f out h
    cases d with
    | sig d0 =>
      by_cases h1 : r ≠ d0.sampling_rate
      · rw [assertLoop, if_pos h1] at h; exact absurd h (by simp)
      · by_cases h2 : ns ≠ some d0.n_samples
        · rw [assertLoop, if_neg h1, if_pos h2] at h; exact absurd h (by simp)
        · rw [assertLoop, if_neg h1, if_neg h2] at h
          rw [signalNorms_cons_sig]
          by_cases hf : f = FftNorm.none
          · subst hf
            by_cases hd : d0.fft_norm = FftNorm.none
            · rw [if_neg (by simp [hd])] at h
              rw [ih _ _ _ _ h, if_pos rfl, if_pos rfl, hd,
                resultNormList_cons_none]
            · rw [if_pos ⟨hd, rfl⟩] at h
              rw [ih _ _ _ _ h, if_neg hd, if_pos rfl,
                resultNormList_cons_ne _ _ hd]
          · rw [if_neg (by simp [hf])] at h
            rw [ih _ _ _ _ h, if_neg hf, if_neg hf]
    | arr dt sh id =>
      by_cases h1 : dt.name ∉ arith_dtypes
      · rw [assertLoop, if_pos h1] at h; exact absurd h (by simp)
      · by_cases h2 : dt.name ∈ ["complex64", "complex128"] ∧ domain = "time"
        · rw [assertLoop, if_neg h1, if_pos h2] at h; exact absurd h (by simp)
        · rw [assertLoop, if_neg h1, if_neg h2] at h
          rw [ih _ _ _ _ h, signalNorms_cons_arr]

theorem assert_ok_out (domain : String) (data : List Operand)
    (out : Option ℚ × Option Nat × Option FftNorm)
    (h : _assert_match_for_arithmetic data domain = Except.ok out) :
    out = ((firstSignal? data).map Signal.sampling_rate,
           (firstSignal? data).map Signal.n_samples,
           (firstSignal? data).map (fun _ => resultNorm data)) := by
  rw [_assert_match_for_arithmetic] at h
  split at h
  case isFalse => exact absurd h (by simp)
  case isTrue hdom =>
    clear hdom
    induction data with
    | nil =>
      rw [assertLoop] at h
      have h2 := (Except.ok.inj h).symm
      subst h2
      rfl
    | cons d rest ih =>
      cases d with
      | sig d0 =>
        rw [assertLoop, if_neg (by simp : ¬ (d0.fft_norm ≠ FftNorm.none ∧
          (some d0.fft_norm : Option FftNorm) = some FftNorm.none))] at h
        rw [assertLoop_some_ok_out domain rest _ _ _ _ h]
        show _ = (some d0.sampling_rate, some d0.n_samples,
                  some (resultNorm (Operand.sig d0 :: rest)))
        rw [resultNorm_eq, signalNorms_cons_sig]
        by_cases hd : d0.fft_norm = FftNorm.none
        · rw [if_pos hd, hd, resultNormList_cons_none]
        · rw [if_neg hd, resultNormList_cons_ne _ _ hd]
      | arr dt sh id =>
        by_cases h1 : dt.name ∉ arith_dtypes
        · rw [assertLoop, if_pos h1] at h; exact absurd h (by simp)
        · by_cases h2 : dt.name ∈ ["complex64", "complex128"] ∧ domain = "time"
          · rw [assertLoop, if_neg h1, if_pos h2] at h; exact absurd h (by simp)
          · rw [assertLoop, if_neg h1, if_neg h2] at h
            rw [ih h]
            rfl

theorem ofString_toString (n : FftNorm) :
    FftNorm.ofString? n.toString = some n := by
  cases n <;> rfl

theorem signal_init_freq_finish_ok_meta (d2 : NpArray) (sr : ℚ) (ns : Nat)
    (fn : Option String) (w0 : Bool) (sig : Signal) (w : Bool)
    (h : signal_init_freq_finish d2 sr ns fn w0 = Except.ok (sig, w)) :
    sig.domain = Domain.freq ∧ sig.sampling_rate = sr ∧ sig.n_samples = ns ∧
    sig.data = d2 ∧
    FftNorm.ofString? (fn.getD "none") = some sig.fft_norm ∧ w = w0 := by
  rw [signal_init_freq_finish] at h
  split at h
  · exact absurd h (by simp)
  · cases hp : FftNorm.ofString? (fn.getD "none") with
    | none => rw [hp] at h; exact absurd h (by simp)
    | some nrm =>
      rw [hp] at h
      have h2 := Except.ok.inj h
      rw [Prod.mk.injEq] at h2
      obtain ⟨h3, h4⟩ := h2
      rw [← h3]
      exact ⟨rfl, rfl, rfl, rfl, rfl, h4.symm⟩

theorem signal_init_ok_meta (data : NpArray) (sr : ℚ) (ns? : Option Nat)
    (domain : String) (fn : Option String) (sig : Signal) (w : Bool)
    (h : signal_init data sr ns? domain fn = Except.ok (sig, w)) :
    sig.sampling_rate = sr ∧
    FftNorm.ofString? (fn.getD "none") = some sig.fft_norm ∧
    sig.data = np_atleast_2d data ∧
    (domain = "time" → sig.domain = Domain.time ∧
      sig.n_samples = (np_atleast_2d data).trailing) ∧
    (domain = "freq" → sig.domain = Domain.freq ∧
      ∀ n, ns? = some n → sig.n_samples = n) := by
  by_cases hd : domain = "time"
  · rw [signal_init.eq_def, if_pos hd] at h
    cases hp : FftNorm.ofString? (fn.getD "none") with
    | none => rw [hp] at h; exact absurd h (by simp)
    | some nrm =>
      rw [hp] at h
      have h1 : (if 1 < (np_atleast_2d data).trailing ∧ sr < 0 then
          Except.error PyErr.valueError
        else Except.ok (({ domain := Domain.time, sampling_rate := sr,
                           n_samples := (np_atleast_2d data).trailing,
                           fft_norm := nrm,
                           data := np_atleast_2d data } : Signal), false)) =
          Except.ok (sig, w) := h
      by_cases hc : 1 < (np_atleast_2d data).trailing ∧ sr < 0
      · rw [if_pos hc] at h1; exact absurd h1 (by simp)
      · rw [if_neg hc] at h1
        have h2 := Except.ok.inj h1
        rw [Prod.mk.injEq] at h2
        obtain ⟨h3, _⟩ := h2
        rw [← h3]
        refine ⟨rfl, rfl, rfl, fun _ => ⟨rfl, rfl⟩, fun hf => ?_⟩
        rw [hd] at hf
        exact absurd hf (by decide)
  · by_cases hf : domain = "freq"
    · rw [signal_init.eq_def, if_neg hd, if_pos hf] at h
      cases ns? with
      | none =>
        have h1 : signal_init_freq_finish (np_atleast_2d data) sr
            (((np_atleast_2d data).trailing - 1) * 2) fn true = Except.ok (sig, w) := h
        obtain ⟨m1, m2, m3, m4, m5, _⟩ :=
          signal_init_freq_finish_ok_meta _ _ _ _ _ _ _ h1
        refine ⟨m2, m5, m4, fun ht => ?_, fun _ => ⟨m1, fun n hn => by cases hn⟩⟩
        rw [hf] at ht
        exact absurd ht (by decide)
      | some n0 =>
        have h1 : (if (n0 : Int) > 2 * ((np_atleast_2d data).trailing : Int) - 1 then
            Except.error PyErr.valueError
          else signal_init_freq_finish (np_atleast_2d data) sr n0 fn false) =
            Except.ok (sig, w) := h
        by_cases hb : (n0 : Int) > 2 * ((np_atleast_2d data).trailing : Int) - 1
        · rw [if_pos hb] at h1; exact absurd h1 (by simp)
        · rw [if_neg hb] at h1
          obtain ⟨m1, m2, m3, m4, m5, _⟩ :=
            signal_init_freq_finish_ok_meta _ _ _ _ _ _ _ h1
          refine ⟨m2, m5, m4, fun ht => ?_,
            fun _ => ⟨m1, fun n hn => by rw [m3, Option.some.inj hn]⟩⟩
          rw [hf] at ht
          exact absurd ht (by decide)
    · rw [signal_init.eq_def, if_neg hd, if_neg hf] at h
      exact absurd h (by simp)

theorem assert_ok_domain (data : List Operand) (domain : String)
    (out : Option ℚ × Option Nat × Option FftNorm)
    (h : _assert_match_for_arithmetic data domain = Except.ok out) :
    domain = "time" ∨ domain = "freq" := by
  rw [_assert_match_for_arithmetic] at h
  split at h
  case isTrue hd => exact hd
  case isFalse => exact absurd h (by simp)

theorem _arithmetic_wrap_ok (result : NpArray) (domain : String) (sr : ℚ)
    (ns? : Option Nat) (fn? : Option FftNorm) (r : Signal)
    (h : _arithmetic_wrap result domain sr ns? fn? = Except.ok (ArithResult.sigRes r))
    (hdom : domain = "time" ∨ domain = "freq") :
    r.sampling_rate = sr ∧
    (∀ fn, fn? = some fn → r.fft_norm = fn) ∧
    r.domain = arithDomain domain ∧
    (domain = "freq" → ∀ n, ns? = some n → r.n_samples = n) ∧
    (domain = "time" → r.n_samples = r.data.shape.getLastD 0) := by
  rw [_arithmetic_wrap] at h
  cases hI : signal_init
      (if arithDomain domain = Domain.freq then
        fft_normalization result (ns?.getD 0) sr (fn?.getD FftNorm.none) false
      else result)
      sr ns? domain (fn?.map FftNorm.toString) with
  | error e => rw [hI] at h; exact absurd h (by simp)
  | ok p =>
    obtain ⟨sig, w⟩ := p
    rw [hI] at h
    have hr : sig = r := by
      have := Except.ok.inj h
      exact ArithResult.sigRes.inj this
    subst hr
    obtain ⟨m1, m2, m3, m4, m5⟩ := signal_init_ok_meta _ _ _ _ _ _ _ hI
    refine ⟨m1, ?_, ?_, ?_, ?_⟩
    · intro fn hfn
      rw [hfn] at m2
      rw [Option.map_some', Option.getD_some, ofString_toString] at m2
      exact (Option.some.inj m2).symm
    · rcases hdom with hd | hd
      · rw [(m4 hd).1, arithDomain, if_pos hd]
      · rw [(m5 hd).1, arithDomain, if_neg (by rw [hd]; decide)]
    · intro hd n hn
      exact (m5 hd).2 n hn
    · intro hd
      rw [(m4 hd).2, m3]
      rfl

theorem _arithmetic_after_ok_sig (data : List Operand) (domain : String)
    (op : OpKind) (sr? : Option ℚ) (ns? : Option Nat) (fn? : Option FftNorm)
    (r : Signal)
    (h : _arithmetic_after data domain op sr? ns? fn? =
      Except.ok (ArithResult.sigRes r)) :
    ∃ sr result, sr? = some sr ∧
      _arithmetic_wrap result domain sr ns? fn? =
        Except.ok (ArithResult.sigRes r) := by
  cases data with
  | nil => exact absurd h (by simp [_arithmetic_after])
  | cons d0 rest =>
    simp only [_arithmetic_after] at h
    cases hF : foldOps op (_get_arithmetic_data d0 ns? (arithDomain domain))
        (List.map (fun d => _get_arithmetic_data d ns? (arithDomain domain)) rest) with
    | error e => rw [hF] at h; exact absurd h (by simp)
    | ok result =>
      rw [hF] at h
      cases sr? with
      | none => exact absurd h (by simp)
      | some sr => exact ⟨sr, result, rfl, h⟩

theorem _arithmetic_assert_error (data : List Operand) (domain : String)
    (op : OpKind) (e : PyErr)
    (h : _assert_match_for_arithmetic data domain = Except.error e) :
    _arithmetic data domain op = Except.error e := by
  rw [_arithmetic, h]

theorem _arithmetic_ok_sig (data : List Operand) (domain : String)
    (op : OpKind) (r : Signal)
    (h : _arithmetic data domain op = Except.ok (ArithResult.sigRes r)) :
    ∃ out result,
      _assert_match_for_arithmetic data domain = Except.ok out ∧
      out.1 = some ((firstSignal? data).getD r).sampling_rate ∧
      _arithmetic_wrap result domain ((firstSignal? data).getD r).sampling_rate
        out.2.1 out.2.2 = Except.ok (ArithResult.sigRes r) := by
  rw [_arithmetic] at h
  cases hA : _assert_match_for_arithmetic data domain with
  | error e => rw [hA] at h; exact absurd h (by simp)
  | ok out =>
    obtain ⟨a, b, c⟩ := out
    rw [hA] at h
    obtain ⟨sr, result, hsr, hw⟩ := _arithmetic_after_ok_sig _ _ _ _ _ _ _ h
    subst hsr
    have hout := assert_ok_out domain data _ hA
    rw [Prod.mk.injEq, Prod.mk.injEq] at hout
    obtain ⟨ha, _, _⟩ := hout
    cases hFS : firstSignal? data with
    | none => rw [hFS] at ha; exact absurd ha (by simp)
    | some s0 =>
      rw [hFS] at ha
      rw [Option.map_some'] at ha
      have hs := Option.some.inj ha
      subst hs
      exact ⟨(some s0.sampling_rate, b, c), result, rfl, rfl, hw⟩

/-- C2 (amended): whenever an arithmetic operation (any of the five) on an
operand tuple containing at least one Signal succeeds with a Signal result,
that result carries the common sampling rate of the Signal operands, the
target domain as its domain tag, and the first-non-none normalization
convention; its sample count equals the common value when the target domain
is `"freq"` (where the explicit count is passed to the constructor), while
for target domain `"time"` the sample count is re-derived as the
trailing-axis length of the broadcast result buffer. -/
theorem C2_arith_metadata (data : List Operand) (domain : String)
    (op : OpKind) (r : Signal)
    (h : _arithmetic data domain op = Except.ok (ArithResult.sigRes r)) :
    ∃ s0, firstSignal? data = some s0 ∧
      r.sampling_rate = s0.sampling_rate ∧
      r.fft_norm = resultNorm data ∧
      r.domain = arithDomain domain ∧
      (domain = "freq" → r.n_samples = s0.n_samples) ∧
      (domain = "time" → r.n_samples = r.data.shape.getLastD 0) := by
  obtain ⟨out, result, hA, hsr1, hw⟩ := _arithmetic_ok_sig data domain op r h
  have hout := assert_ok_out domain data out hA
  have hdom := assert_ok_domain data domain out hA
  cases hFS : firstSignal? data with
  | none =>
    rw [hout] at hsr1
    rw [hFS] at hsr1
    simp at hsr1
  | some s0 =>
    rw [hout] at hw
    rw [hFS] at hw
    simp only [Option.map_some', Option.getD_some] at hw
    obtain ⟨w1, w2, w3, w4, w5⟩ := _arithmetic_wrap_ok _ _ _ _ _ _ hw hdom
    exact ⟨s0, rfl, w1, w2 _ rfl, w3, fun hd => w4 hd _ rfl, w5⟩

/-- A one-sample time-domain signal (`Signal([x], 48000)`). -/
def oneSampleSig : Signal :=
  ⟨Domain.time, 48000, 1, FftNorm.none, ⟨[1, 1], SymData.raw 0⟩⟩

/-- The Signal produced by `add((oneSampleSig, np.ones(5)), 'time')`. -/
def oneSampleAddRes : Signal :=
  ⟨Domain.time, 48000, 5, FftNorm.none,
   ⟨[1, 5], SymData.binop OpKind.add (SymData.raw 0) (SymData.raw 1)⟩⟩

/-- C2 counterexample: `add((s, np.ones(5)), 'time')` with `s` a Signal of
sample count 1 succeeds, but the result's sample count is 5, not the common
Signal-operand value 1 — the time-domain constructor re-derives the count
from the broadcast buffer, so the claim as stated fails. -/
theorem C2_cex :
    add [Operand.sig oneSampleSig, Operand.arr Dtype.float64 [5] 1] "time" =
      Except.ok (ArithResult.sigRes oneSampleAddRes) ∧
    oneSampleSig.n_samples = 1 ∧ oneSampleAddRes.n_samples = 5 ∧
    (5 : Nat) ≠ 1 := by
  refine ⟨by decide, rfl, rfl, by decide⟩

/-- The `multiply((s, 2.0))` instance of the claim:
a frequency-domain Signal at 48 kHz with 1024 samples and rms norm. -/
def rmsSig : Signal :=
  ⟨Domain.freq, 48000, 1024, FftNorm.rms, ⟨[1, 513], SymData.raw 0⟩⟩

/-- The Signal produced by `multiply((rmsSig, 2.0))` in the model. -/
def rmsMulRes : Signal :=
  ⟨Domain.freq, 48000, 1024, FftNorm.rms,
   ⟨[1, 513],
    SymData.normalization
      (SymData.binop OpKind.mul
        (SymData.normalization (SymData.raw 0) 1024 48000 FftNorm.rms true)
        (SymData.raw 1))
      1024 48000 FftNorm.rms false⟩⟩

theorem C2_witness :
    (∃ s0, firstSignal? [Operand.sig rmsSig, Operand.arr Dtype.float64 [] 1] = some s0 ∧
      rmsMulRes.sampling_rate = s0.sampling_rate ∧
      rmsMulRes.fft_norm = resultNorm [Operand.sig rmsSig, Operand.arr Dtype.float64 [] 1] ∧
      rmsMulRes.domain = arithDomain "freq" ∧
      ("freq" = "freq" → rmsMulRes.n_samples = s0.n_samples) ∧
      ("freq" = "time" → rmsMulRes.n_samples = rmsMulRes.data.shape.getLastD 0)) ∧
    rmsMulRes.sampling_rate = 48000 ∧ rmsMulRes.n_samples = 1024 ∧
    rmsMulRes.fft_norm = FftNorm.rms :=
  ⟨C2_arith_metadata [Operand.sig rmsSig, Operand.arr Dtype.float64 [] 1]
      "freq" OpKind.mul rmsMulRes (by decide),
   rfl, rfl, rfl⟩

/-- C6: two Signal operands disagreeing on sampling rate or sample count
make every arithmetic operation fail (the metadata assertion raises
ValueError — the spec's MetadataMismatch — before any combination). -/
theorem C6_mismatch_rejected (data : List Operand) (domain : String)
    (op : OpKind) (s1 s2 : Signal)
    (h1 : Operand.sig s1 ∈ data) (h2 : Operand.sig s2 ∈ data)
    (hne : s1.sampling_rate ≠ s2.sampling_rate ∨ s1.n_samples ≠ s2.n_samples) :
    _arithmetic data domain op = Except.error PyErr.valueError := by
  cases hA : _assert_match_for_arithmetic data domain with
  | ok out =>
    have hag := assert_ok_signals_agree domain data out hA s1 s2 h1 h2
    rcases hne with hne | hne
    · exact absurd hag.1 hne
    · exact absurd hag.2 hne
  | error e =>
    have he : e = PyErr.valueError := by
      rw [_assert_match_for_arithmetic] at hA
      split at hA
      · exact assertLoop_error_eq domain data _ _ _ _ hA
      · exact (Except.error.inj hA).symm
    rw [he] at hA
    exact _arithmetic_assert_error data domain op _ hA

def sigAt48k : Signal := ⟨Domain.time, 48000, 64, FftNorm.none, ⟨[1, 64], SymData.raw 0⟩⟩

def sigAt44k : Signal := ⟨Domain.time, 44100, 64, FftNorm.none, ⟨[1, 64], SymData.raw 1⟩⟩

theorem C6_witness :
    _arithmetic [Operand.sig sigAt48k, Operand.sig sigAt44k] "freq" OpKind.add =
      Except.error PyErr.valueError :=
  C6_mismatch_rejected _ "freq" OpKind.add sigAt48k sigAt44k
    (by decide) (by decide) (Or.inl (by decide))

/-- C7 counterexample: an unsigned 8-bit integer operand — which the claim
says is accepted — is rejected by the whitelist (it lists only signed
integer kinds), so the operation fails with ValueError (the spec's
InvalidArgument). -/
theorem C7_cex :
    multiply [Operand.arr Dtype.uint8 [] 0] "freq" =
      Except.error PyErr.valueError := by decide

/-- C7 (amended): a non-Signal operand whose kind is a signed 8/16/32/64-bit
integer or a 32/64-bit float is accepted; a 64/128-bit complex operand is
accepted exactly when the target domain is not `"time"`; every other kind —
unsigned integers included — fails with ValueError (InvalidArgument).  On
acceptance the single-operand operation returns the raw array unchanged. -/
theorem C7_dtype_whitelist (dt : Dtype) (sh : List Nat) (id : Nat)
    (op : OpKind) (domain : String)
    (hdom : domain = "time" ∨ domain = "freq") :
    (amendedAccept dt domain = true →
      _arithmetic [Operand.arr dt sh id] domain op =
        Except.ok (ArithResult.arrOnly ⟨sh, SymData.raw id⟩)) ∧
    (amendedAccept dt domain = false →
      _arithmetic [Operand.arr dt sh id] domain op =
        Except.error PyErr.valueError) := by
  rcases hdom with hd | hd <;> subst hd <;> cases dt <;>
    simp [amendedAccept, _arithmetic, _assert_match_for_arithmetic, assertLoop,
      arith_dtypes, Dtype.name, _arithmetic_after, _get_arithmetic_data, foldOps]

theorem C7_witness :
    (amendedAccept Dtype.int8 "freq" = true →
      _arithmetic [Operand.arr Dtype.int8 [] 3] "freq" OpKind.mul =
        Except.ok (ArithResult.arrOnly ⟨[], SymData.raw 3⟩)) ∧
    (amendedAccept Dtype.int8 "freq" = false →
      _arithmetic [Operand.arr Dtype.int8 [] 3] "freq" OpKind.mul =
        Except.error PyErr.valueError) :=
  C7_dtype_whitelist Dtype.int8 [] 3 OpKind.mul "freq" (Or.inr rfl)

theorem getLastD_append_single (l : List Nat) (x d : Nat) :
    (l ++ [x]).getLastD d = x := by
  induction l generalizing d with
  | nil => rfl
  | cons a t ih => rw [List.cons_append, List.getLastD_cons]; exact ih a

theorem trailing_np_atleast_2d_append (l : List Nat) (x : Nat) (v : SymData) :
    (np_atleast_2d ⟨l ++ [x], v⟩).trailing = x := by
  unfold np_atleast_2d NpArray.trailing np_atleast_2d_shape
  cases l with
  | nil => rfl
  | cons a t =>
    cases t with
    | nil => rfl
    | cons b t2 =>
      show ((a :: b :: t2) ++ [x]).getLastD 0 = x
      exact getLastD_append_single _ _ _

/-- The state reached by the first frequency read of a time-domain signal:
the buffer replaced by its forward transform, the domain tag flipped,
everything else untouched (the freq setter keeps `n_samples` because the
transform yields exactly `n_bins` bins). -/
theorem freq_read_of_time (s : Signal) (h : s.domain = Domain.time) :
    s.freq_read =
      ({ s with
          data := np_atleast_2d (fft_rfft s.data s.n_samples s.sampling_rate s.fft_norm),
          domain := Domain.freq },
       np_atleast_2d (fft_rfft s.data s.n_samples s.sampling_rate s.fft_norm)) := by
  have hne : ¬ s.domain = Domain.freq := by rw [h]; decide
  have hc : (np_atleast_2d (fft_rfft s.data s.n_samples s.sampling_rate
      s.fft_norm)).trailing = fft_n_bins s.n_samples := by
    unfold fft_rfft
    exact trailing_np_atleast_2d_append _ _ _
  unfold Signal.freq_read Signal.set_domain Signal.freq_set
  rw [if_neg hne]
  rw [if_pos hc]

theorem freq_read_of_freq (s : Signal) (h : s.domain = Domain.freq) :
    s.freq_read = (s, s.data) := by
  unfold Signal.freq_read Signal.set_domain
  rw [if_pos h]

/-- C3: for a Signal currently in the time domain, reading the frequency
accessor twice with no intervening write invokes the forward transform
exactly once — the first read stores the converted buffer (exactly one new
`rfft` call recorded) and flips the domain tag, preserving the sample
count; the second read returns the cached buffer and is the identity on
the state (so no transform call is added). -/
theorem C3_freq_read_once (s : Signal) (h : s.domain = Domain.time) :
    (s.freq_read).1.domain = Domain.freq ∧
    (s.freq_read).1.data.val =
      SymData.rfft s.data.val s.n_samples s.sampling_rate s.fft_norm ∧
    (s.freq_read).1.n_samples = s.n_samples ∧
    rfftCount (s.freq_read).1.data.val = rfftCount s.data.val + 1 ∧
    (s.freq_read).1.freq_read = ((s.freq_read).1, (s.freq_read).1.data) := by
  rw [freq_read_of_time s h]
  refine ⟨rfl, rfl, rfl, rfl, ?_⟩
  exact freq_read_of_freq _ rfl

def timeSig28 : Signal :=
  ⟨Domain.time, 8, 8, FftNorm.none, ⟨[2, 8], SymData.raw 0⟩⟩

theorem C3_witness :
    (timeSig28.freq_read).1.domain = Domain.freq ∧
    (timeSig28.freq_read).1.data.val =
      SymData.rfft timeSig28.data.val timeSig28.n_samples
        timeSig28.sampling_rate timeSig28.fft_norm ∧
    (timeSig28.freq_read).1.n_samples = timeSig28.n_samples ∧
    rfftCount (timeSig28.freq_read).1.data.val =
      rfftCount timeSig28.data.val + 1 ∧
    (timeSig28.freq_read).1.freq_read =
      ((timeSig28.freq_read).1, (timeSig28.freq_read).1.data) :=
  C3_freq_read_once timeSig28 rfl

/-- C4: setting the normalization convention — an unrecognized name fails
with ValueError (InvalidArgument) leaving the state unchanged (the check
precedes every mutation in the source); a recognized value different from
the current one re-scales the cached buffer exactly when the signal is in
the frequency domain (one inverse-normalization call with the old
convention wrapped by one forward call with the new one), and in the time
domain only the convention label changes, the buffer untouched. -/
theorem C4_fft_norm_set (s : Signal) (value : String) :
    (FftNorm.ofString? value = Option.none →
      s.fft_norm_set value = (s, some PyErr.valueError)) ∧
    (∀ v, FftNorm.ofString? value = some v → v ≠ s.fft_norm →
      s.domain = Domain.freq →
      s.fft_norm_set value =
        ({ s with
            data := fft_normalization
              (fft_normalization s.data s.n_samples s.sampling_rate s.fft_norm true)
              s.n_samples s.sampling_rate v false,
            fft_norm := v }, Option.none)) ∧
    (∀ v, FftNorm.ofString? value = some v → s.domain = Domain.time →
      s.fft_norm_set value = ({ s with fft_norm := v }, Option.none)) := by
  refine ⟨?_, ?_, ?_⟩
  · intro hp
    unfold Signal.fft_norm_set
    rw [hp]
  · intro v hp hne hdom
    unfold Signal.fft_norm_set
    rw [hp]
    dsimp only
    rw [if_pos ⟨Ne.symm hne, hdom⟩]
  · intro v hp hdom
    unfold Signal.fft_norm_set
    rw [hp]
    dsimp only
    rw [if_neg (fun hc => by rw [hdom] at hc; exact absurd hc.2 (by decide))]

def freqSig25 : Signal :=
  ⟨Domain.freq, 8, 8, FftNorm.none, ⟨[2, 5], SymData.raw 0⟩⟩

theorem C4_witness :
    FftNorm.ofString? "amplitude" = some FftNorm.amplitude ∧
    FftNorm.amplitude ≠ freqSig25.fft_norm ∧
    freqSig25.domain = Domain.freq ∧
    freqSig25.fft_norm_set "amplitude" =
      ({ freqSig25 with
          data := fft_normalization
            (fft_normalization freqSig25.data freqSig25.n_samples
              freqSig25.sampling_rate freqSig25.fft_norm true)
            freqSig25.n_samples freqSig25.sampling_rate FftNorm.amplitude false,
          fft_norm := FftNorm.amplitude }, Option.none) :=
  ⟨rfl, by decide, rfl,
   (C4_fft_norm_set freqSig25 "amplitude").2.1 FftNorm.amplitude rfl
     (by decide) rfl⟩

/-- C5: a frequency-domain write replaces the buffer directly (the stored
value is the written one, no transform constructor is applied) and tags the
domain; when the written trailing-axis length differs from the current bin
count the sample count is recovered as `2*(new_bin_count-1)` and the
non-fatal warning fires, and when it matches, the sample count is kept and
no warning fires.  The hypothesis `1 ≤ ...` restricts the statement to at
least one bin, where the `Nat` subtraction agrees with Python's arithmetic
(an empty spectrum would make Python set a negative sample count). -/
theorem C5_freq_set (s : Signal) (value : NpArray)
    (_hL : 1 ≤ (np_atleast_2d value).trailing) :
    (s.freq_set value).sig.data = np_atleast_2d value ∧
    (s.freq_set value).sig.data.val = value.val ∧
    (s.freq_set value).sig.domain = Domain.freq ∧
    ((np_atleast_2d value).trailing ≠ fft_n_bins s.n_samples →
      (s.freq_set value).sig.n_samples =
        2 * ((np_atleast_2d value).trailing - 1) ∧
      (s.freq_set value).warned = true) ∧
    ((np_atleast_2d value).trailing = fft_n_bins s.n_samples →
      (s.freq_set value).sig.n_samples = s.n_samples ∧
      (s.freq_set value).warned = false) := by
  unfold Signal.freq_set
  by_cases hc : (np_atleast_2d value).trailing = fft_n_bins s.n_samples
  · rw [if_pos hc]
    exact ⟨rfl, rfl, rfl, fun hne => absurd hc hne, fun _ => ⟨rfl, rfl⟩⟩
  · rw [if_neg hc]
    refine ⟨rfl, rfl, rfl, fun _ => ⟨Nat.mul_comm _ _, rfl⟩, fun he => absurd he hc⟩

theorem C5_witness :
    (1 ≤ (np_atleast_2d ⟨[2, 9], SymData.raw 7⟩).trailing) ∧
    (timeSig28.freq_set ⟨[2, 9], SymData.raw 7⟩).sig.data =
      np_atleast_2d ⟨[2, 9], SymData.raw 7⟩ ∧
    (timeSig28.freq_set ⟨[2, 9], SymData.raw 7⟩).sig.data.val = SymData.raw 7 ∧
    (timeSig28.freq_set ⟨[2, 9], SymData.raw 7⟩).sig.domain = Domain.freq ∧
    ((np_atleast_2d ⟨[2, 9], SymData.raw 7⟩).trailing ≠
        fft_n_bins timeSig28.n_samples →
      (timeSig28.freq_set ⟨[2, 9], SymData.raw 7⟩).sig.n_samples =
        2 * ((np_atleast_2d ⟨[2, 9], SymData.raw 7⟩).trailing - 1) ∧
      (timeSig28.freq_set ⟨[2, 9], SymData.raw 7⟩).warned = true) ∧
    ((np_atleast_2d ⟨[2, 9], SymData.raw 7⟩).trailing =
        fft_n_bins timeSig28.n_samples →
      (timeSig28.freq_set ⟨[2, 9], SymData.raw 7⟩).sig.n_samples =
        timeSig28.n_samples ∧
      (timeSig28.freq_set ⟨[2, 9], SymData.raw 7⟩).warned = false) :=
  ⟨by decide, C5_freq_set timeSig28 ⟨[2, 9], SymData.raw 7⟩ (by decide)⟩

/-- C10: constructing a Signal from frequency-domain data with an explicit
sample count fails (ValueError) exactly when `n_samples > 2*n_bins - 1`
(despite the error message quoting the bound `2*data.shape[-1] - 2`); any
`n_samples` at or below the bound — including the odd boundary value
`2*n_bins - 1` and values inconsistent with the one-sided-spectrum relation
— is accepted without error and without warning. -/
theorem C10_freq_init_bound (data : NpArray) (sr : ℚ) (ns : Nat)
    (hsr : 0 < sr) :
    ((ns : Int) > 2 * ((np_atleast_2d data).trailing : Int) - 1 →
      signal_init data sr (some ns) "freq" (some "none") =
        Except.error PyErr.valueError) ∧
    ((ns : Int) ≤ 2 * ((np_atleast_2d data).trailing : Int) - 1 →
      signal_init data sr (some ns) "freq" (some "none") =
        Except.ok ({ domain := Domain.freq, sampling_rate := sr,
                     n_samples := ns, fft_norm := FftNorm.none,
                     data := np_atleast_2d data }, false)) := by
  constructor
  · intro hgt
    rw [signal_init.eq_def, if_neg (by decide : ¬ ("freq" : String) = "time"),
      if_pos rfl]
    dsimp only
    rw [if_pos hgt]
  · intro hle
    rw [signal_init.eq_def, if_neg (by decide : ¬ ("freq" : String) = "time"),
      if_pos rfl]
    dsimp only
    rw [if_neg (not_lt.mpr hle)]
    rw [signal_init_freq_finish, if_neg (fun hc => absurd hsr hc.2)]
    rfl

theorem C10_witness :
    (((5 : Nat) : Int) > 2 * ((np_atleast_2d ⟨[1, 3], SymData.raw 0⟩).trailing : Int) - 1 →
      signal_init ⟨[1, 3], SymData.raw 0⟩ 48000 (some 5) "freq" (some "none") =
        Except.error PyErr.valueError) ∧
    (((5 : Nat) : Int) ≤ 2 * ((np_atleast_2d ⟨[1, 3], SymData.raw 0⟩).trailing : Int) - 1 →
      signal_init ⟨[1, 3], SymData.raw 0⟩ 48000 (some 5) "freq" (some "none") =
        Except.ok ({ domain := Domain.freq, sampling_rate := 48000,
                     n_samples := 5, fft_norm := FftNorm.none,
                     data := np_atleast_2d ⟨[1, 3], SymData.raw 0⟩ }, false)) :=
  C10_freq_init_bound ⟨[1, 3], SymData.raw 0⟩ 48000 5 (by decide)

/-- A time-domain signal of channel shape (3,4) with 256 samples. -/
def sig34 : Signal :=
  ⟨Domain.time, 48000, 256, FftNorm.none, ⟨[3, 4, 256], SymData.raw 0⟩⟩

/-- C1 counterexample: iterating a Signal of channel shape (3,4) yields 3
sub-signals (numpy iterates the first axis only), not the 12 single-channel
signals the claim demands. -/
theorem C1_cex :
    (signal_iterate sig34).map List.length = Except.ok 3 ∧
    (signal_iterate sig34).map List.length ≠ Except.ok 12 := by
  exact ⟨by decide, by decide⟩

theorem signal_init_time_ok (data : NpArray) (sr : ℚ) (ns? : Option Nat)
    (nrm : FftNorm) (hsr : ¬ sr < 0) :
    ∃ p, signal_init data sr ns? "time" (some nrm.toString) = Except.ok p := by
  rw [signal_init.eq_def, if_pos rfl]
  rw [show (some nrm.toString).getD "none" = nrm.toString from rfl]
  rw [ofString_toString]
  dsimp only
  rw [if_neg (fun hc => hsr hc.2)]
  exact ⟨_, rfl⟩

theorem signal_init_freq_ok (data : NpArray) (sr : ℚ) (ns : Nat)
    (nrm : FftNorm) (hsr : 0 < sr)
    (hb : (ns : Int) ≤ 2 * ((np_atleast_2d data).trailing : Int) - 1) :
    ∃ p, signal_init data sr (some ns) "freq" (some nrm.toString) =
      Except.ok p := by
  rw [signal_init.eq_def, if_neg (by decide : ¬ ("freq" : String) = "time"),
    if_pos rfl]
  dsimp only
  rw [if_neg (not_lt.mpr hb)]
  rw [signal_init_freq_finish, if_neg (fun hc => absurd hsr hc.2)]
  rw [show (some nrm.toString).getD "none" = nrm.toString from rfl]
  rw [ofString_toString]
  exact ⟨_, rfl⟩

/-- C1 (amended): iterating a Signal yields one sub-signal per index along
the FIRST leading axis (numpy array iteration), each sharing sample count,
sampling rate, domain, and normalization with the parent, and carrying the
remaining axes as its shape (`atleast_2d` of the parent shape minus its
first axis).  The hypotheses state the well-formedness the source needs: a
positive rate, at least two axes, a nonempty second-to-last axis (the
`[..., 0, :]` template index), the time-domain shape invariant, and the
constructor bound for frequency-domain parents. -/
theorem C1_iterate (s : Signal)
    (hsr : 0 < s.sampling_rate)
    (hlen : 2 ≤ s.data.shape.length)
    (hpen : ¬ s.data.shape.get? (s.data.shape.length - 2) = some 0)
    (htime : s.domain = Domain.time → s.data.trailing = s.n_samples)
    (hfreq : s.domain = Domain.freq →
      (s.n_samples : Int) ≤ 2 * (s.data.trailing : Int) - 1) :
    ∃ l, signal_iterate s = Except.ok l ∧
      l.length = s.data.shape.headD 0 ∧
      ∀ e ∈ l, e.n_samples = s.n_samples ∧
        e.sampling_rate = s.sampling_rate ∧
        e.domain = s.domain ∧
        e.fft_norm = s.fft_norm ∧
        e.data.shape = np_atleast_2d_shape s.data.shape.tail := by
  -- decompose the shape from the back: shape = front ++ [penult, last]
  cases hr : s.data.shape.reverse with
  | nil =>
    exfalso
    have h2 : 2 ≤ s.data.shape.reverse.length := by
      rw [List.length_reverse]; exact hlen
    rw [hr] at h2; simp at h2
  | cons a t =>
    cases t with
    | nil =>
      exfalso
      have h2 : 2 ≤ s.data.shape.reverse.length := by
        rw [List.length_reverse]; exact hlen
      rw [hr] at h2; simp at h2
    | cons b t2 =>
      have hsh : s.data.shape = (t2.reverse ++ [b]) ++ [a] := by
        conv_lhs => rw [← List.reverse_reverse s.data.shape, hr]
        simp [List.reverse_cons]
      have hdrop : dropPenult s.data.shape = t2.reverse ++ [a] := by
        rw [dropPenult, hr]
      have htrail : s.data.trailing = a := by
        rw [NpArray.trailing, hsh]
        exact getLastD_append_single _ _ _
      have htr : ∀ v, (np_atleast_2d ⟨dropPenult s.data.shape, v⟩).trailing = a := by
        intro v
        rw [hdrop]
        exact trailing_np_atleast_2d_append _ _ _
      -- the template constructor succeeds
      have hinit : ∃ p,
          signal_init ⟨dropPenult s.data.shape, SymData.subsel s.data.val 0⟩
            s.sampling_rate (some s.n_samples) (domainString s.domain)
            (some s.fft_norm.toString) = Except.ok p := by
        cases hd : s.domain with
        | time =>
          exact signal_init_time_ok _ _ _ _ (not_lt.mpr (le_of_lt hsr))
        | freq =>
          refine signal_init_freq_ok _ _ _ _ hsr ?_
          rw [htr, ← htrail]
          exact hfreq hd
      obtain ⟨⟨iter0, w0⟩, hinit⟩ := hinit
      obtain ⟨m1, m2, m3, m4, m5⟩ := signal_init_ok_meta _ _ _ _ _ _ _ hinit
      have hnorm : iter0.fft_norm = s.fft_norm := by
        have hm := m2
        rw [show (some s.fft_norm.toString).getD "none" = s.fft_norm.toString
          from rfl] at hm
        rw [ofString_toString] at hm
        exact (Option.some.inj hm).symm
      have hdns : iter0.domain = s.domain ∧ iter0.n_samples = s.n_samples := by
        cases hd : s.domain with
        | time =>
          have h4 := m4 (by rw [hd]; rfl)
          refine ⟨by rw [h4.1], ?_⟩
          rw [h4.2, htr, ← htrail]
          exact htime hd
        | freq =>
          have h5 := m5 (by rw [hd]; rfl)
          exact ⟨by rw [h5.1], h5.2 _ rfl⟩
      unfold signal_iterate
      dsimp only
      rw [if_neg (not_lt.mpr hlen), if_neg hpen, hinit]
      refine ⟨_, rfl, by simp, ?_⟩
      intro e he
      rw [List.mem_map] at he
      obtain ⟨i, _, hei⟩ := he
      rw [← hei]
      exact ⟨hdns.2, m1, hdns.1, hnorm, rfl⟩

theorem C1_witness :
    ∃ l, signal_iterate sig34 = Except.ok l ∧
      l.length = sig34.data.shape.headD 0 ∧
      ∀ e ∈ l, e.n_samples = sig34.n_samples ∧
        e.sampling_rate = sig34.sampling_rate ∧
        e.domain = sig34.domain ∧
        e.fft_norm = sig34.fft_norm ∧
        e.data.shape = np_atleast_2d_shape sig34.data.shape.tail :=
  C1_iterate sig34 (by decide) (by decide) (by decide)
    (fun _ => by decide) (fun h => absurd h (by decide))

/-- C8 (amended): channel assignment checks the metadata first — any
mismatch in sampling rate, sample count, or normalization fails with
ValueError (InvalidArgument) — and then dispatches on the key type: an
in-range integer key or a slice key with nonzero step performs the numpy
assignment (given a broadcast-compatible value shape), but a TUPLE key is
rejected with TypeError even when the metadata matches (the setter accepts
only `int` and `slice`, unlike the getter). -/
theorem C8_setitem (s v : Signal) (key : PyKey) :
    (¬ (s.sampling_rate = v.sampling_rate ∧ s.n_samples = v.n_samples ∧
        s.fft_norm = v.fft_norm) →
      s.setitem key v = Except.error PyErr.valueError) ∧
    (s.sampling_rate = v.sampling_rate → s.n_samples = v.n_samples →
      s.fft_norm = v.fft_norm →
      ((∀ i, key = PyKey.int i →
          ¬ (i < -(s.data.shape.headD 0 : Int) ∨ (s.data.shape.headD 0 : Int) ≤ i) →
          canAssign v.data.shape s.data.shape.tail = true →
          s.setitem key v = Except.ok
            { s with data := ⟨s.data.shape, SymData.setElem s.data.val v.data.val⟩ }) ∧
       (∀ start stop step, key = PyKey.slice start stop step →
          ¬ step = some 0 →
          canAssign v.data.shape
            (pySliceLen (s.data.shape.headD 0) start stop step ::
              s.data.shape.tail) = true →
          s.setitem key v = Except.ok
            { s with data := ⟨s.data.shape, SymData.setElem s.data.val v.data.val⟩ }) ∧
       (∀ ks, key = PyKey.tup ks →
          s.setitem key v = Except.error PyErr.typeError))) := by
  constructor
  · intro hmm
    unfold Signal.setitem Signal.assert_matching_meta_data
    by_cases h1 : s.sampling_rate ≠ v.sampling_rate
    · rw [if_pos h1]
    · rw [if_neg h1]
      by_cases h2 : s.n_samples ≠ v.n_samples
      · rw [if_pos h2]
      · rw [if_neg h2]
        by_cases h3 : s.fft_norm ≠ v.fft_norm
        · rw [if_pos h3]
        · exact absurd ⟨not_not.mp h1, not_not.mp h2, not_not.mp h3⟩ hmm
  · intro h1 h2 h3
    have hA : s.assert_matching_meta_data v = Option.none := by
      unfold Signal.assert_matching_meta_data
      rw [if_neg (not_not.mpr h1), if_neg (not_not.mpr h2),
        if_neg (not_not.mpr h3)]
    refine ⟨?_, ?_, ?_⟩
    · intro i hk hin hca
      subst hk
      unfold Signal.setitem
      rw [hA]
      dsimp only
      rw [if_neg hin, if_pos hca]
    · intro start stop step hk hstep hca
      subst hk
      unfold Signal.setitem
      rw [hA]
      dsimp only
      rw [if_neg hstep, if_pos hca]
    · intro ks hk
      subst hk
      unfold Signal.setitem
      rw [hA]

def parent8 : Signal :=
  ⟨Domain.time, 48000, 64, FftNorm.none, ⟨[3, 64], SymData.raw 8⟩⟩

def val8 : Signal :=
  ⟨Domain.time, 48000, 64, FftNorm.none, ⟨[1, 64], SymData.raw 9⟩⟩

/-- C8 counterexample: with metadata matching exactly, a tuple key — which
the claim says succeeds — raises TypeError. -/
theorem C8_cex :
    parent8.sampling_rate = val8.sampling_rate ∧
    parent8.n_samples = val8.n_samples ∧
    parent8.fft_norm = val8.fft_norm ∧
    parent8.setitem (PyKey.tup [0]) val8 = Except.error PyErr.typeError := by
  exact ⟨rfl, rfl, rfl, by decide⟩

theorem C8_witness :
    parent8.setitem (PyKey.int 0) val8 = Except.ok
      { parent8 with data := ⟨parent8.data.shape,
          SymData.setElem parent8.data.val val8.data.val⟩ } :=
  ((C8_setitem parent8 val8 (PyKey.int 0)).2 rfl rfl rfl).1 0 rfl
    (by decide) (by decide)

def aliasHeap0 : HHeap := fun _ => [[1, 2], [3, 4]]

def aliasParent : HArr := ⟨0, Dtype.float64, NpView.whole⟩

/-- The signal buffer obtained through `parent[0]` in the storage model. -/
def aliasChild : HArr := (getitem_buffer aliasHeap0 aliasParent 0 1).1

def aliasHeap1 : HHeap := hWrite aliasHeap0 aliasParent 0 0 99

/-- C9 counterexample: the buffer of the signal returned by a channel slice
`parent[0]` is a view of the parent's allocation, so an in-place write
through the parent changes the data observed through the slice — two
signals do share a mutable buffer. -/
theorem C9_cex :
    hObserve aliasHeap0 aliasChild = [[1, 2]] ∧
    hObserve aliasHeap1 aliasChild = [[99, 2]] ∧
    hObserve aliasHeap1 aliasChild ≠ hObserve aliasHeap0 aliasChild := by
  exact ⟨by decide, by decide, by decide⟩

/-- C9 (amended): a channel slice obtained through `[]` shares the parent's
allocation (`np.asarray` does not copy when the dtype matches, and basic
indexing returns a view), so parent writes are visible through it — while a
deep copy (`utils.copy`) lives at a fresh allocation and is unaffected by
subsequent in-place writes through the parent. -/
theorem C9_alias (h : HHeap) (p : HArr) (k fresh fresh2 : Nat)
    (hfresh : fresh2 ≠ p.bufId) (i j : Nat) (x : ℚ) :
    (getitem_buffer h p k fresh).1.bufId = p.bufId ∧
    hObserve (hWrite (utils_copy_buffer h p fresh2).2 p i j x)
        (utils_copy_buffer h p fresh2).1 =
      hObserve (utils_copy_buffer h p fresh2).2
        (utils_copy_buffer h p fresh2).1 := by
  constructor
  · unfold getitem_buffer np_asarray_h
    rw [if_pos rfl]
  · unfold utils_copy_buffer hObserve hWrite
    dsimp only
    rw [if_neg hfresh]

theorem C9_witness :
    (getitem_buffer aliasHeap0 aliasParent 0 1).1.bufId = aliasParent.bufId ∧
    hObserve (hWrite (utils_copy_buffer aliasHeap0 aliasParent 5).2
        aliasParent 0 0 99)
      (utils_copy_buffer aliasHeap0 aliasParent 5).1 =
      hObserve (utils_copy_buffer aliasHeap0 aliasParent 5).2
        (utils_copy_buffer aliasHeap0 aliasParent 5).1 :=
  C9_alias aliasHeap0 aliasParent 0 1 5 (by decide) 0 0 99
